import Mathlib

/-!
Verification of the node-deploy synchronization engine.

Each definition below is a shallow embedding of a function of the
repository; the theorems settle the frozen claims about the spec.
-/

namespace NodeDeploy

/-- Fallible results are embedded as `Except`; equality of concrete
results is decidable componentwise. -/
instance {ε α : Type} [DecidableEq ε] [DecidableEq α] : DecidableEq (Except ε α) := fun a b =>
  match a, b with
  | .ok x, .ok y =>
    if h : x = y then .isTrue (by rw [h]) else .isFalse (by intro hc; cases hc; exact h rfl)
  | .error x, .error y =>
    if h : x = y then .isTrue (by rw [h]) else .isFalse (by intro hc; cases hc; exact h rfl)
  | .ok _, .error _ => .isFalse (by intro hc; cases hc)
  | .error _, .ok _ => .isFalse (by intro hc; cases hc)

/-!
Diff engine, embedding `compare` from the diff module:

    const missing = local.filter(fn => current.find(r => r.name === fn.name) === undefined)
    const surplus = current.filter(r => local.find(fn => r.name === fn.name) === undefined)
    const existing = current.filter(r => local.find(fn => r.name === fn.name) !== undefined)

The two input lists may have different element types; only the `name`
field is consulted, so the embedding is parametrised by the two
name projections.
-/

structure Diff (α β : Type) where
  missing : List α
  surplus : List β
  existing : List β

def compare {α β : Type} (na : α → String) (nb : β → String)
    (localFns : List α) (current : List β) : Diff α β :=
  { missing := localFns.filter fun fn => (current.find? fun remote => nb remote == na fn).isNone
    surplus := current.filter fun remote => (localFns.find? fun fn => na fn == nb remote).isNone
    existing := current.filter fun remote => (localFns.find? fun fn => na fn == nb remote).isSome }

/-- Whether some item of the list carries the given name. -/
def nameIn {α : Type} (f : α → String) (l : List α) (n : String) : Bool :=
  l.any fun x => f x == n

/-!
Path pattern translation, embedding `trimTrailingSlash` and the
`replaceAll('*', () => ` wildcard counter from the routing client
(`asRoute` in apiGateway.ts) and the trigger client (`makeStatementData`
in triggers.ts).  Every `*` character is replaced, left to right, by a
brace-wrapped placeholder `p1`, `p2`, ...; the counter `p` starts at 0 and
is pre-incremented.
-/

def wildcardAux : List Char → Nat → List Char
  | [], _ => []
  | c :: rest, p =>
    if c = '*' then
      ("\x7bp".data ++ (Nat.repr (p + 1)).data ++ "\x7d".data) ++ wildcardAux rest (p + 1)
    else
      c :: wildcardAux rest p

def replaceWildcards (s : String) : String :=
  ⟨wildcardAux s.data 0⟩

def trimTrailingSlash (s : String) : String :=
  if s.data.getLast? = some '/' then ⟨s.data.dropLast⟩ else s

/-- JavaScript `String.prototype.split` with a single-character separator,
as used by `fns[0]?.id.split(':')`. -/
def splitOnCharAux (sep : Char) : List Char → List Char → List String
  | [], acc => [⟨acc.reverse⟩]
  | c :: rest, acc =>
    if c = sep then ⟨acc.reverse⟩ :: splitOnCharAux sep rest []
    else splitOnCharAux sep rest (c :: acc)

def splitOnChar (sep : Char) (s : String) : List String :=
  splitOnCharAux sep s.data []

/-- Desired HTTP function, as produced by project reflection: name,
method and path pattern (wildcard segments written `*`). -/
structure HttpFn where
  name : String
  method : String
  pathPattern : String
  deriving DecidableEq, Repr

/-- Route in the reduced gateway shape (apiGateway.ts `AwsRoute`);
`authorizationType` is fixed to `NONE` and `apiKeyRequired` to false. -/
structure AwsRoute where
  routeKey : String
  authorizationType : String
  apiKeyRequired : Bool
  target : String
  deriving DecidableEq, Repr

/-- Embedding of `asRoute` (apiGateway.ts): throws when the integration id
is missing, else builds the route key as
`method ++ " /" ++ trimTrailingSlash(pattern.replaceAll('*', () => placeholder))`
and targets `integrations/<id>`. -/
def asRoute (integrationId : Option String) (fn : HttpFn) : Except String AwsRoute :=
  match integrationId with
  | none => .error ("Weird: no integration ID for " ++ fn.method ++ " " ++ fn.pathPattern)
  | some iid =>
    .ok { routeKey := fn.method ++ " /" ++ trimTrailingSlash (replaceWildcards fn.pathPattern)
          authorizationType := "NONE"
          apiKeyRequired := false
          target := "integrations/" ++ iid }

/-!
Trigger (resource-based permission) reconciliation, embedding
`makeStatementData` and the per-function loop of `syncTriggers`
(triggers.ts).  A statement's shape excluding the server-assigned `Sid`
is `StmtData`; the `Condition.ArnLike['AWS:SourceArn']` value is the
`sourceArn` field.
-/

structure StmtData where
  action : String
  effect : String
  principalService : String
  resource : String
  sourceArn : String
  deriving DecidableEq, Repr

structure AwsStatement where
  sid : String
  data : StmtData
  deriving DecidableEq, Repr

/-- Embedding of `makeStatementData` (triggers.ts).  The TS `region` and
`account` are `string | undefined` and checked with `if (!region || !account)`;
`undefined` is modelled as the empty string, which is the other falsy case. -/
def makeStatementData (region account apiGatewayId functionId : String) (fn : HttpFn) :
    Except String StmtData :=
  if region = "" ∨ account = "" then .error "Weird"
  else
    .ok { action := "lambda:InvokeFunction"
          effect := "Allow"
          principalService := "apigateway.amazonaws.com"
          resource := functionId
          sourceArn := "arn:aws:execute-api:" ++ region ++ ":" ++ account ++ ":"
            ++ apiGatewayId ++ "/*/*/" ++ trimTrailingSlash (replaceWildcards fn.pathPattern) }

/-- The statement loop of `syncTriggers`: iterate the existing statements
in order carrying the `exists` flag; a statement whose `Sid`-less data
equals the desired shape is kept once (`exists := true`) and deleted when
a matching one was already kept; every non-matching statement is deleted.
Returns the deleted statement ids and the final `exists` flag. -/
def processStatements (d : StmtData) : List AwsStatement → Bool → List String × Bool
  | [], ex => ([], ex)
  | s :: rest, ex =>
    if s.data = d then
      if ex then
        let r := processStatements d rest ex
        (s.sid :: r.1, r.2)
      else
        processStatements d rest true
    else
      let r := processStatements d rest ex
      (s.sid :: r.1, r.2)

/-- After the loop, `syncTriggers` adds one statement with a fresh random
id exactly when no existing statement matched.  Returns the deleted ids
and the added statement, if any.  `trigger.statements` may be absent
(`Option`), in which case the loop body is skipped. -/
def reconcileTrigger (d : StmtData) (freshId : String) (stmts : Option (List AwsStatement)) :
    List String × Option AwsStatement :=
  let r := processStatements d (stmts.getD []) false
  (r.1, if r.2 then none else some ⟨freshId, d⟩)

/-- The remote statement list after `syncTriggers` ran on one function:
statements whose id was deleted are gone, and the added statement (if
any) is appended. -/
def triggerEndState (stmts : List AwsStatement) (d : StmtData) (freshId : String) :
    List AwsStatement :=
  let r := reconcileTrigger d freshId (some stmts)
  stmts.filter (fun s => !(r.1.contains s.sid)) ++ (r.2.elim [] fun a => [a])

/-!
Function sync, embedding the slice of `syncLambda` (lambda client) that
the claims are about: the diff, the create/delete sets, and the returned
identifier list

    return currentFunctions.map(fn => ({ id: fn.id, name: fn.name })).concat(created)
-/

/-- Reduced remote function shape (`AwsFunctionLite`); only the fields
consulted by the diff and by the returned identifier list are modelled
structurally, the rest are carried opaque. -/
structure AwsFunctionLite where
  id : String
  name : String
  runtime : String
  memory : Nat
  timeout : Nat
  env : List (String × String)
  hash : String
  deriving DecidableEq, Repr

structure FnRef where
  id : String
  name : String
  deriving DecidableEq, Repr

/-- Embedding of `syncLambda` (lambda client): diff desired against
current by name, create the missing ones (`createdId` models the id the
platform assigns), delete the surplus ones not on the safe-list, and
return the pre-run function refs concatenated with the created ones.
Result: (returned identifier list, names of the deleted functions). -/
def syncLambda (currentFunctions : List AwsFunctionLite) (http : List HttpFn)
    (safeList : List String) (createdId : HttpFn → String) :
    List FnRef × List String :=
  let d := compare HttpFn.name AwsFunctionLite.name http currentFunctions
  let created := d.missing.map fun fn => FnRef.mk (createdId fn) fn.name
  let deleted := (d.surplus.filter fun el => !(safeList.contains el.name)).map
    AwsFunctionLite.name
  ((currentFunctions.map fun fn => FnRef.mk fn.id fn.name) ++ created, deleted)

/-!
Orchestrator slice (sync.ts `sync`): region/account parsing from the
first returned function identifier and the returned public base URL.
-/

/-- Embedding of

    const [_arn, _aws, _lambda, region, account, ...] = fns[0]?.id.split(':') ?? []
    if (!region || !account) throw new Error('Weird')

Missing destructured positions are `undefined`, modelled as `""`, the
other falsy string. -/
def parseRegionAccount (fns : List FnRef) : Except String (String × String) :=
  let parts := match fns.head? with
    | some f => splitOnChar ':' f.id
    | none => []
  let region := (parts.get? 3).getD ""
  let account := (parts.get? 4).getD ""
  if region = "" ∨ account = "" then .error "Weird" else .ok (region, account)

/-- The base URL returned by `sync`:

    return `https://$\x7bgatewayId\x7d.execute-api.eu-central-1.amazonaws.com/`

the region in the host name is the fixed literal `eu-central-1`, not the
parsed region. -/
def syncBaseUrl (fns : List FnRef) (gatewayId : String) : Except String String :=
  match parseRegionAccount fns with
  | .error e => .error e
  | .ok _ => .ok ("https://" ++ gatewayId ++ ".execute-api.eu-central-1.amazonaws.com/")

/-!
Signed-request client retry policies (lite.ts).
-/

structure AwsError where
  status : Nat
  deriving DecidableEq, Repr

def isConflict (e : AwsError) : Bool :=
  e.status == 409

/-- `retryConflict` computes its deadline as now + 30 seconds before the
first attempt. -/
def conflictDeadlineMs : Nat := 30000

/-- Embedding of `retryConflict` (lite.ts).  The wrapped operation is
modelled as a trace of attempts, each an outcome paired with the time (ms
since the first invocation) at which its failure is handled; the loop
returns the first success, propagates a non-conflict error or a conflict
seen strictly after the deadline, and otherwise sleeps and retries.
`none` means the modelled trace ran out while the code would still loop. -/
def retryConflict {α : Type} : List (Nat × Except AwsError α) → Option (Except AwsError α)
  | [] => none
  | (_, .ok v) :: _ => some (.ok v)
  | (now, .error e) :: rest =>
    if !(isConflict e) || conflictDeadlineMs < now then some (.error e)
    else retryConflict rest

/-- The jittered sleep `((Math.random() + 0.5) * 500) / 2` milliseconds,
with the random draw modelled as `j` per mille (`0 ≤ j < 1000`). -/
def conflictRetryDelayMs (j : Nat) : Nat :=
  ((j + 500) * 250) / 1000

/-!
Environment resolution DSL (glue.ts `variables` / `resolveEnv`).  The
regex scan is abstracted away: each embedded definition is the `value`
callback of one token kind, applied to the fetched data exactly as
`resolveEnv` supplies it.  For the generative tokens the key being
resolved is looked up in the service's own previously-deployed
environment (`environments[service]`, fetched through the resolver
because `source.environment === own` is a symbol and never equals the
service name string, so these tokens are not treated as self-referencing).
-/

def lookup2 (envs : List (String × List (String × String))) (svc key : String) :
    Option String :=
  match envs.lookup svc with
  | some env => env.lookup key
  | none => none

/-- Embedding of the `$SAME_AS(service,key)` value callback:

    env[service]?.[key] ?? '' ?? variableError(`Variable ... not found. Has it been deployed?`)

the interposed `?? ''` makes the `variableError` operand unreachable: a
missing key yields the empty string. -/
def sameAsValue (envs : List (String × List (String × String))) (svc key : String) :
    Except String String :=
  match (lookup2 envs svc key).or (some "") with
  | some v => .ok v
  | none => .error ("Variable " ++ key ++ " for " ++ svc ++ " not found. Has it been deployed?")

/-- Modelled from the spec: `getApiEndpoint` (routing client; imported by
resolve.ts but its defining module is not under src/) returns the
deployed gateway endpoint of the service, or `undefined` when the
service has no deployed gateway — the spec's resource clients treat
"not found" as an empty/undefined result, not an error.  The remote
state is collapsed to the optional endpoint itself. -/
def getApiEndpoint (gatewayEndpoint : Option String) : Option String :=
  gatewayEndpoint

/-- Embedding of `Resolver.getBaseUrl` (resolve.ts):

    ((await getApiEndpoint(env, prefix, service)) ?? '') + '/'

an absent gateway coalesces to the empty string, so the result is always
a string (never `undefined`), `"/"` in the absent case. -/
def getBaseUrl (gatewayEndpoint : Option String) : String :=
  ((getApiEndpoint gatewayEndpoint).getD "") ++ "/"

/-- `fetchBaseUrls` (glue.ts): fetch the base URL of every referenced
service through the resolver; each service's remote gateway state is its
optional endpoint. -/
def fetchBaseUrls (endpoints : List (String × Option String)) : List (String × String) :=
  endpoints.map fun p => (p.1, getBaseUrl p.2)

/-- Embedding of the `$BASE_URL(service)` value callback:

    url[service] ?? variableError(`Base URL for ... not found. Has it been deployed?`)
-/
def baseUrlValue (urls : List (String × String)) (svc : String) : Except String String :=
  match urls.lookup svc with
  | some u => .ok u
  | none => .error ("Base URL for " ++ svc ++ " not found. Has it been deployed?")

def hexDigit (n : Nat) : Char :=
  if n < 10 then Char.ofNat (48 + n) else Char.ofNat (87 + n)

def byteToHex (b : Nat) : List Char :=
  [hexDigit (b / 16), hexDigit (b % 16)]

/-- Node's `Buffer.toString('hex')`: two lowercase hex digits per byte. -/
def bytesToHex (bs : List Nat) : String :=
  ⟨(bs.map byteToHex).flatten⟩

def isLowerHexDigit (c : Char) : Bool :=
  ('0' ≤ c && c ≤ '9') || ('a' ≤ c && c ≤ 'f')

/-- Embedding of the `$RANDOM(bits)` value callback:

    env[service]?.[key] ?? randomBytes(Math.ceil(Number(bits) / 8)).toString('hex')

`ownEnv` is the service's own previously-deployed environment and `key`
the variable being resolved; the platform's random byte stream is
modelled by `entropy` (one byte per index). -/
def randomValue (ownEnv : List (String × String)) (key : String) (bits : Nat)
    (entropy : Nat → Nat) : String :=
  match ownEnv.lookup key with
  | some v => v
  | none => bytesToHex ((List.range ((bits + 7) / 8)).map fun i => entropy i % 256)

/-- Embedding of the `$PRIVATE_KEY(curve)` value callback: a previously
deployed value is reused, otherwise a key pair is generated
(`generateKeyPairSync`, modelled by the `generated` parameter). -/
def privateKeyValue (ownEnv : List (String × String)) (key : String)
    (generated : String) : String :=
  (ownEnv.lookup key).getD generated

/-!
Alerting setup (`setupTelemetry`): a falsy configuration returns at once;
everything else runs inside a try/catch whose catch logs a warning and
returns `undefined`, so no error escapes.
-/

structure TelemetryConfig where
  alarm : Option String
  metricFilter : Option String
  endpoint : Option String
  deriving DecidableEq, Repr

/-- The check `if (!config.endpoint)`: `undefined` and the empty string
are both falsy. -/
def endpointFalsy (cfg : TelemetryConfig) : Bool :=
  cfg.endpoint.getD "" == ""

/-- Embedding of `setupTelemetry`.  The work after the endpoint check
(listener deploy, settle delay, topic, trigger, alarms) is the
`pipeline`, which may fail with any error; its success value is the
returned safe-list.  Result: the returned value (always `.ok`) paired
with the warnings logged. -/
def setupTelemetry {ε α : Type} (config : Option TelemetryConfig)
    (pipeline : TelemetryConfig → Except ε α) : Except ε (Option α) × List String :=
  match config with
  | none => (.ok none, [])
  | some cfg =>
    if endpointFalsy cfg then (.ok none, ["invalid telemetry config."])
    else
      match pipeline cfg with
      | .ok r => (.ok (some r), [])
      | .error _ => (.ok none, ["Error setting up telemetry"])

theorem find?_isNone_eq_not_any {α : Type} (p : α → Bool) (l : List α) :
    (l.find? p).isNone = !(l.any p) := by
  induction l with
  | nil => rfl
  | cons x xs ih =>
    by_cases h : p x = true
    · simp [List.find?, List.any, h]
    · simp only [Bool.not_eq_true] at h
      simp [List.find?, List.any, h, ih]

theorem nameIn_true_iff {α : Type} (f : α → String) (l : List α) (n : String) :
    nameIn f l n = true ↔ ∃ x, x ∈ l ∧ f x = n := by
  simp [nameIn, List.any_eq_true]

theorem mem_compare_missing {α β : Type} (na : α → String) (nb : β → String)
    (localFns : List α) (current : List β) (x : α) :
    x ∈ (compare na nb localFns current).missing ↔
      x ∈ localFns ∧ nameIn nb current (na x) = false := by
  simp only [compare, List.mem_filter, find?_isNone_eq_not_any]
  constructor
  · rintro ⟨hmem, hb⟩
    refine ⟨hmem, ?_⟩
    cases h : nameIn nb current (na x) with
    | false => rfl
    | true =>
      rw [show (current.any fun remote => nb remote == na x) = nameIn nb current (na x) from rfl,
        h] at hb
      simp at hb
  · rintro ⟨hmem, hb⟩
    refine ⟨hmem, ?_⟩
    rw [show (current.any fun remote => nb remote == na x) = nameIn nb current (na x) from rfl,
      hb]
    rfl

theorem mem_compare_surplus {α β : Type} (na : α → String) (nb : β → String)
    (localFns : List α) (current : List β) (y : β) :
    y ∈ (compare na nb localFns current).surplus ↔
      y ∈ current ∧ nameIn na localFns (nb y) = false := by
  simp only [compare, List.mem_filter, find?_isNone_eq_not_any]
  constructor
  · rintro ⟨hmem, hb⟩
    refine ⟨hmem, ?_⟩
    cases h : nameIn na localFns (nb y) with
    | false => rfl
    | true =>
      rw [show (localFns.any fun fn => na fn == nb y) = nameIn na localFns (nb y) from rfl,
        h] at hb
      simp at hb
  · rintro ⟨hmem, hb⟩
    refine ⟨hmem, ?_⟩
    rw [show (localFns.any fun fn => na fn == nb y) = nameIn na localFns (nb y) from rfl, hb]
    rfl

theorem mem_compare_existing {α β : Type} (na : α → String) (nb : β → String)
    (localFns : List α) (current : List β) (y : β) :
    y ∈ (compare na nb localFns current).existing ↔
      y ∈ current ∧ nameIn na localFns (nb y) = true := by
  simp only [compare, List.mem_filter, Option.isSome_iff_exists]
  constructor
  · rintro ⟨hmem, w, hw⟩
    refine ⟨hmem, ?_⟩
    have := List.find?_some hw
    have hmemw := List.mem_of_find?_eq_some hw
    exact (nameIn_true_iff na localFns (nb y)).mpr ⟨w, hmemw, by simpa using this⟩
  · rintro ⟨hmem, hb⟩
    refine ⟨hmem, ?_⟩
    obtain ⟨w, hwmem, hwn⟩ := (nameIn_true_iff na localFns (nb y)).mp hb
    have : localFns.any (fun fn => na fn == nb y) = true :=
      List.any_eq_true.mpr ⟨w, hwmem, by simpa using hwn⟩
    have hns : (localFns.find? fun fn => na fn == nb y).isNone = false := by
      rw [find?_isNone_eq_not_any, this]
      rfl
    cases h : localFns.find? fun fn => na fn == nb y with
    | none => rw [h] at hns; simp at hns
    | some v => exact ⟨v, rfl⟩

theorem nameIn_compare_missing {α β : Type} (na : α → String) (nb : β → String)
    (localFns : List α) (current : List β) (n : String) :
    nameIn na (compare na nb localFns current).missing n =
      (nameIn na localFns n && !(nameIn nb current n)) := by
  rw [Bool.eq_iff_iff]
  simp only [nameIn_true_iff, mem_compare_missing, Bool.and_eq_true, Bool.not_eq_true']
  constructor
  · rintro ⟨x, ⟨hx, hni⟩, hn⟩
    subst hn
    exact ⟨⟨x, hx, rfl⟩, hni⟩
  · rintro ⟨⟨x, hx, hn⟩, hni⟩
    exact ⟨x, ⟨hx, by rw [hn]; exact hni⟩, hn⟩

theorem nameIn_compare_surplus {α β : Type} (na : α → String) (nb : β → String)
    (localFns : List α) (current : List β) (n : String) :
    nameIn nb (compare na nb localFns current).surplus n =
      (nameIn nb current n && !(nameIn na localFns n)) := by
  rw [Bool.eq_iff_iff]
  simp only [nameIn_true_iff, mem_compare_surplus, Bool.and_eq_true, Bool.not_eq_true']
  constructor
  · rintro ⟨y, ⟨hy, hni⟩, hn⟩
    subst hn
    exact ⟨⟨y, hy, rfl⟩, hni⟩
  · rintro ⟨⟨y, hy, hn⟩, hni⟩
    exact ⟨y, ⟨hy, by rw [hn]; exact hni⟩, hn⟩

theorem nameIn_compare_existing {α β : Type} (na : α → String) (nb : β → String)
    (localFns : List α) (current : List β) (n : String) :
    nameIn nb (compare na nb localFns current).existing n =
      (nameIn nb current n && nameIn na localFns n) := by
  rw [Bool.eq_iff_iff]
  simp only [nameIn_true_iff, mem_compare_existing, Bool.and_eq_true]
  constructor
  · rintro ⟨y, ⟨hy, hni⟩, hn⟩
    subst hn
    exact ⟨⟨y, hy, rfl⟩, hni⟩
  · rintro ⟨⟨y, hy, hn⟩, hni⟩
    exact ⟨y, ⟨hy, by rw [hn]; exact hni⟩, hn⟩

/-- C1: `compare(desired, current)` partitions the union of both inputs by
name: `missing` holds exactly the desired items whose name occurs in no
current item, `surplus` exactly the current items whose name occurs in no
desired item, `existing` exactly the current items whose name also occurs in
some desired item, and every name occurring in either input appears in
exactly one of the three lists (so no two lists share a name). -/
theorem compare_partitions_by_name {α β : Type} (na : α → String) (nb : β → String)
    (desired : List α) (current : List β) :
    (∀ x, x ∈ (compare na nb desired current).missing ↔
        x ∈ desired ∧ nameIn nb current (na x) = false) ∧
    (∀ y, y ∈ (compare na nb desired current).surplus ↔
        y ∈ current ∧ nameIn na desired (nb y) = false) ∧
    (∀ y, y ∈ (compare na nb desired current).existing ↔
        y ∈ current ∧ nameIn na desired (nb y) = true) ∧
    (∀ n : String,
      ((if nameIn na (compare na nb desired current).missing n then 1 else 0) +
        (if nameIn nb (compare na nb desired current).surplus n then 1 else 0) +
        (if nameIn nb (compare na nb desired current).existing n then 1 else 0) : Nat) =
        if (nameIn na desired n || nameIn nb current n) then 1 else 0) := by
  refine ⟨mem_compare_missing na nb desired current,
    mem_compare_surplus na nb desired current,
    mem_compare_existing na nb desired current, ?_⟩
  intro n
  rw [nameIn_compare_missing, nameIn_compare_surplus, nameIn_compare_existing]
  cases nameIn na desired n <;> cases nameIn nb current n <;> rfl

/-- C5 counterexample: on the literal path pattern `"/things/*/sub/*"` of the
claim, `asRoute` produces the route key `GET //things/{p1}/sub/{p2}` — the
code inserts a `/` of its own between the method and the translated
pattern — not the claimed `GET /things/{p1}/sub/{p2}`. -/
theorem asRoute_leading_slash_cex :
    (asRoute (some "i-1") ⟨"things", "GET", "/things/*/sub/*"⟩).map AwsRoute.routeKey
        = .ok "GET //things/{p1}/sub/{p2}" ∧
    ("GET //things/{p1}/sub/{p2}" : String) ≠ "GET /things/{p1}/sub/{p2}" := by
  exact ⟨by decide, by decide⟩

/-- C5 amended: the route key is the method, a space, a `/` inserted by the
code, then the path pattern with each `*` replaced left to right by
`{p1}`, `{p2}`, ... and a trailing slash trimmed after the replacement;
so the pattern is supplied without its leading slash: `things/*/sub/*`
with `GET` yields `GET /things/{p1}/sub/{p2}`, and `things/*/` yields
`GET /things/{p1}` with no trailing slash. -/
theorem asRoute_routeKey_translation :
    (∀ (iid : String) (fn : HttpFn),
      asRoute (some iid) fn =
        .ok { routeKey := fn.method ++ " /" ++ trimTrailingSlash (replaceWildcards fn.pathPattern)
              authorizationType := "NONE"
              apiKeyRequired := false
              target := "integrations/" ++ iid }) ∧
    (asRoute (some "i-1") ⟨"things", "GET", "things/*/sub/*"⟩).map AwsRoute.routeKey
        = .ok "GET /things/{p1}/sub/{p2}" ∧
    (asRoute (some "i-1") ⟨"things", "GET", "things/*/"⟩).map AwsRoute.routeKey
        = .ok "GET /things/{p1}" := by
  exact ⟨fun iid fn => rfl, by decide, by decide⟩

/-- C3: when the referenced service's fetched environment has no entry for
the key, `$SAME_AS` does not raise the "not found" error — the interposed
`?? ''` short-circuits it — and instead expands to the empty string; when
the entry exists it expands to the stored value. -/
theorem sameAs_missing_key_yields_empty_string :
    sameAsValue [("other", [])] "other" "KEY" = .ok "" ∧
    sameAsValue [("other", [("KEY", "stored")])] "other" "KEY" = .ok "stored" := by
  exact ⟨by decide, by decide⟩

/-- C6: when the referenced service has no deployed gateway,
`Resolver.getBaseUrl` coalesces the absent endpoint to `''` and appends
`'/'`, so `$BASE_URL` expands to `"/"` without raising the "Base URL not
found" error; with a deployed gateway it expands to the endpoint plus a
trailing slash. -/
theorem baseUrl_missing_gateway_yields_slash :
    baseUrlValue (fetchBaseUrls [("dep", none)]) "dep" = .ok "/" ∧
    baseUrlValue
        (fetchBaseUrls [("dep", some "https://x.execute-api.eu-central-1.amazonaws.com")])
        "dep"
      = .ok "https://x.execute-api.eu-central-1.amazonaws.com/" := by
  exact ⟨by decide, by decide⟩

/-- C4: `sync` parses the region out of the first synced function's
identifier (here `us-west-2`) but the returned base URL hardcodes the
region `eu-central-1` in the host name, so the URL does not use the
parsed region. -/
theorem syncBaseUrl_hardcoded_region :
    parseRegionAccount [⟨"arn:aws:lambda:us-west-2:123456789012:function:p-s-f", "f"⟩]
        = .ok ("us-west-2", "123456789012") ∧
    syncBaseUrl [⟨"arn:aws:lambda:us-west-2:123456789012:function:p-s-f", "f"⟩] "gid"
        = .ok "https://gid.execute-api.eu-central-1.amazonaws.com/" ∧
    ("https://gid.execute-api.eu-central-1.amazonaws.com/" : String)
        ≠ "https://gid.execute-api.us-west-2.amazonaws.com/" := by
  exact ⟨by decide, by decide, by decide⟩

theorem processStatements_no_match (d : StmtData) (ss : List AwsStatement)
    (h : ∀ s ∈ ss, s.data ≠ d) :
    processStatements d ss false = (ss.map AwsStatement.sid, false) := by
  induction ss with
  | nil => rfl
  | cons s rest ih =>
    have hs : s.data ≠ d := h s (List.mem_cons_self s rest)
    have hrest : ∀ x ∈ rest, x.data ≠ d := fun x hx => h x (List.mem_cons_of_mem s hx)
    simp [processStatements, hs, ih hrest]

/-- C2: on a function whose existing trigger carries one statement equal to
the desired `Sid`-less shape and one that differs, `syncTriggers` deletes
the differing one, keeps exactly the matching one, and issues no add; a
duplicate matching statement beyond the first is deleted as well; and
when no statement matches, everything is deleted and exactly one
statement with the fresh random id and the desired shape is added, so the
end state is always exactly one statement of the desired shape. -/
theorem syncTriggers_converges_to_one_statement
    (region account apiId fnId freshId : String) (fn : HttpFn) (d : StmtData)
    (_hd : makeStatementData region account apiId fnId fn = .ok d)
    (s1 s2 : AwsStatement)
    (h1 : s1.data = d) (h2 : s2.data ≠ d) (hsid : s1.sid ≠ s2.sid) :
    triggerEndState [s1, s2] d freshId = [s1] ∧
    triggerEndState [s2, s1] d freshId = [s1] ∧
    (reconcileTrigger d freshId (some [s1, s2])).2 = none ∧
    (∀ s3 : AwsStatement, s3.data = d →
      reconcileTrigger d freshId (some [s1, s3]) = ([s3.sid], none)) ∧
    (∀ ss : List AwsStatement, (∀ s ∈ ss, s.data ≠ d) →
      triggerEndState ss d freshId = [⟨freshId, d⟩]) := by
  have hbeq : (s1.sid == s2.sid) = false := beq_eq_false_iff_ne.mpr hsid
  refine ⟨?_, ?_, ?_, ?_, ?_⟩
  · simp [triggerEndState, reconcileTrigger, processStatements, h1, h2, hbeq, hsid,
      List.filter]
  · simp [triggerEndState, reconcileTrigger, processStatements, h1, h2, hbeq, hsid,
      List.filter]
  · simp [reconcileTrigger, processStatements, h1, h2]
  · intro s3 h3
    simp [reconcileTrigger, processStatements, h1, h3]
  · intro ss hss
    have hp := processStatements_no_match d ss hss
    simp only [triggerEndState, reconcileTrigger, Option.getD_some, hp, Bool.false_eq_true,
      if_false, Option.elim_some]
    have hnil : ss.filter (fun s => !((ss.map AwsStatement.sid).contains s.sid)) = [] := by
      rw [List.filter_eq_nil_iff]
      intro a ha
      simp [List.mem_map_of_mem AwsStatement.sid ha]
    rw [hnil]
    rfl

theorem syncTriggers_converges_witness :
    triggerEndState
        [⟨"sidA", ⟨"lambda:InvokeFunction", "Allow", "apigateway.amazonaws.com", "arn:fn",
            "arn:aws:execute-api:eu-central-1:123456789012:gid/*/*/things/{p1}"⟩⟩,
          ⟨"sidB", ⟨"lambda:InvokeFunction", "Allow", "sns.amazonaws.com", "arn:fn",
            "arn:aws:execute-api:eu-central-1:123456789012:gid/*/*/things/{p1}"⟩⟩]
        ⟨"lambda:InvokeFunction", "Allow", "apigateway.amazonaws.com", "arn:fn",
          "arn:aws:execute-api:eu-central-1:123456789012:gid/*/*/things/{p1}"⟩
        "fresh-uuid"
      = [⟨"sidA", ⟨"lambda:InvokeFunction", "Allow", "apigateway.amazonaws.com", "arn:fn",
          "arn:aws:execute-api:eu-central-1:123456789012:gid/*/*/things/{p1}"⟩⟩] :=
  (syncTriggers_converges_to_one_statement "eu-central-1" "123456789012" "gid" "arn:fn"
    "fresh-uuid" ⟨"f", "GET", "things/*"⟩ _ (by decide)
    _ _ (by decide) (by decide) (by decide)).1

theorem hexDigit_lower : ∀ n, n < 16 → isLowerHexDigit (hexDigit n) = true := by
  decide

theorem byteToHex_lower (b : Nat) (h : b < 256) :
    ∀ c ∈ byteToHex b, isLowerHexDigit c = true := by
  intro c hc
  simp only [byteToHex, List.mem_cons, List.not_mem_nil, or_false] at hc
  rcases hc with h1 | h2
  · subst h1
    exact hexDigit_lower _ ((Nat.div_lt_iff_lt_mul (by decide)).mpr h)
  · subst h2
    exact hexDigit_lower _ (Nat.mod_lt _ (by decide))

theorem bytesToHex_length (bs : List Nat) : (bytesToHex bs).length = 2 * bs.length := by
  induction bs with
  | nil => rfl
  | cons b rest ih =>
    simp only [bytesToHex, String.length] at ih ⊢
    simp only [List.map_cons, List.flatten_cons, List.length_append, ih, byteToHex,
      List.length_cons, List.length_nil]
    omega

theorem bytesToHex_lower (bs : List Nat) (h : ∀ b ∈ bs, b < 256) :
    ∀ c ∈ (bytesToHex bs).data, isLowerHexDigit c = true := by
  intro c hc
  simp only [bytesToHex, List.mem_flatten, List.mem_map] at hc
  obtain ⟨l, ⟨b, hb, hl⟩, hcl⟩ := hc
  subst hl
  exact byteToHex_lower b (h b hb) c hcl

/-- C7: a generative token (`$RANDOM(n)`, `$PRIVATE_KEY(curve)`) whose key
already has a value in the service's own previously-deployed environment
expands to exactly that stored value; with no stored value, `$RANDOM(n)`
expands to a lowercase hex string of exactly `2 * ceil(n/8)` characters,
so two separate resolutions from an empty prior state agree in length and
format whatever the random draws are. -/
theorem generative_tokens_reuse_and_format
    (ownEnv : List (String × String)) (key : String) (bits : Nat)
    (entropy e1 e2 : Nat → Nat) (v generated : String) :
    (ownEnv.lookup key = some v → randomValue ownEnv key bits entropy = v) ∧
    (ownEnv.lookup key = some v → privateKeyValue ownEnv key generated = v) ∧
    (ownEnv.lookup key = none →
      (randomValue ownEnv key bits entropy).length = 2 * ((bits + 7) / 8) ∧
      ∀ c ∈ (randomValue ownEnv key bits entropy).data, isLowerHexDigit c = true) ∧
    (ownEnv.lookup key = none →
      (randomValue ownEnv key bits e1).length = (randomValue ownEnv key bits e2).length) := by
  refine ⟨?_, ?_, ?_, ?_⟩
  · intro h
    simp [randomValue, h]
  · intro h
    simp [privateKeyValue, h]
  · intro h
    constructor
    · simp only [randomValue, h]
      rw [bytesToHex_length]
      simp
    · simp only [randomValue, h]
      exact bytesToHex_lower _ (by
        intro b hb
        simp only [List.mem_map] at hb
        obtain ⟨i, _, hi⟩ := hb
        omega)
  · intro h
    simp only [randomValue, h]
    rw [bytesToHex_length, bytesToHex_length]
    simp

theorem generative_tokens_witness :
    randomValue [("K", "stored")] "K" 128 (fun _ => 0) = "stored" ∧
    privateKeyValue [("K", "stored")] "K" "freshly-generated" = "stored" ∧
    (randomValue [] "K" 16 (fun i => 171 + i)).length = 2 * ((16 + 7) / 8) :=
  ⟨(generative_tokens_reuse_and_format [("K", "stored")] "K" 128 (fun _ => 0) (fun _ => 0)
      (fun _ => 0) "stored" "freshly-generated").1 (by decide),
    (generative_tokens_reuse_and_format [("K", "stored")] "K" 128 (fun _ => 0) (fun _ => 0)
      (fun _ => 0) "stored" "freshly-generated").2.1 (by decide),
    ((generative_tokens_reuse_and_format [] "K" 16 (fun i => 171 + i) (fun _ => 0)
      (fun _ => 0) "unused" "unused").2.2.1 (by decide)).1⟩

/-- C8: `retryConflict` retries an attempt that fails with an HTTP 409
conflict at or before the 30-second deadline measured from the first
invocation, propagates a conflict seen after the deadline, propagates a
non-conflict error immediately, returns the first success unchanged, and
sleeps a jittered delay of between 125 and 374 ms before each retry. -/
theorem retryConflict_policy {α : Type} :
    (∀ (now : Nat) (e : AwsError) (rest : List (Nat × Except AwsError α)),
      isConflict e = true → now ≤ conflictDeadlineMs →
        retryConflict ((now, .error e) :: rest) = retryConflict rest) ∧
    (∀ (now : Nat) (e : AwsError) (rest : List (Nat × Except AwsError α)),
      isConflict e = true → conflictDeadlineMs < now →
        retryConflict ((now, .error e) :: rest) = some (.error e)) ∧
    (∀ (now : Nat) (e : AwsError) (rest : List (Nat × Except AwsError α)),
      isConflict e = false →
        retryConflict ((now, .error e) :: rest) = some (.error e)) ∧
    (∀ (now : Nat) (v : α) (rest : List (Nat × Except AwsError α)),
      retryConflict ((now, .ok v) :: rest) = some (.ok v)) ∧
    (∀ j, j < 1000 → 125 ≤ conflictRetryDelayMs j ∧ conflictRetryDelayMs j ≤ 374) := by
  refine ⟨?_, ?_, ?_, ?_, ?_⟩
  · intro now e rest hc hle
    simp [retryConflict, hc, Nat.not_lt.mpr hle]
  · intro now e rest hc hgt
    simp [retryConflict, hc, hgt]
  · intro now e rest hc
    simp [retryConflict, hc]
  · intro now v rest
    rfl
  · intro j hj
    simp only [conflictRetryDelayMs]
    omega

theorem retryConflict_policy_witness :
    retryConflict (α := Nat) [(100, .error ⟨409⟩), (350, .ok 5)] = some (.ok 5) ∧
    retryConflict (α := Nat) [(30001, .error ⟨409⟩)] = some (.error ⟨409⟩) ∧
    retryConflict (α := Nat) [(100, .error ⟨500⟩)] = some (.error ⟨500⟩) ∧
    125 ≤ conflictRetryDelayMs 999 ∧ conflictRetryDelayMs 999 ≤ 374 :=
  ⟨((retryConflict_policy (α := Nat)).1 100 ⟨409⟩ [(350, .ok 5)] (by decide) (by decide)).trans
      ((retryConflict_policy (α := Nat)).2.2.2.1 350 5 []),
    (retryConflict_policy (α := Nat)).2.1 30001 ⟨409⟩ [] (by decide) (by decide),
    (retryConflict_policy (α := Nat)).2.2.1 100 ⟨500⟩ [] (by decide),
    ((retryConflict_policy (α := Nat)).2.2.2.2 999 (by decide)).1,
    ((retryConflict_policy (α := Nat)).2.2.2.2 999 (by decide)).2⟩

/-- C9: `setupTelemetry` never propagates an error: its result is `.ok`
for every configuration and every outcome of the inner setup pipeline; a
falsy configuration is a silent no-op, a configuration whose endpoint is
missing (or empty) is a no-op with the "invalid telemetry config."
warning, and a pipeline failure is swallowed with the
"Error setting up telemetry" warning, returning `undefined`. -/
theorem setupTelemetry_never_fails {ε α : Type} :
    (∀ (config : Option TelemetryConfig) (pipeline : TelemetryConfig → Except ε α),
      (setupTelemetry config pipeline).1.isOk = true) ∧
    (∀ pipeline : TelemetryConfig → Except ε α,
      setupTelemetry none pipeline = (.ok none, [])) ∧
    (∀ (cfg : TelemetryConfig) (pipeline : TelemetryConfig → Except ε α),
      endpointFalsy cfg = true →
        setupTelemetry (some cfg) pipeline = (.ok none, ["invalid telemetry config."])) ∧
    (∀ (cfg : TelemetryConfig) (pipeline : TelemetryConfig → Except ε α) (e : ε),
      endpointFalsy cfg = false → pipeline cfg = .error e →
        setupTelemetry (some cfg) pipeline = (.ok none, ["Error setting up telemetry"])) := by
  refine ⟨?_, fun _ => rfl, ?_, ?_⟩
  · intro config pipeline
    match config with
    | none => rfl
    | some cfg =>
      simp only [setupTelemetry]
      by_cases h : endpointFalsy cfg = true
      · simp only [h, if_true]
        rfl
      · simp only [Bool.not_eq_true] at h
        simp only [h, Bool.false_eq_true, if_false]
        cases pipeline cfg <;> rfl
  · intro cfg pipeline h
    simp [setupTelemetry, h]
  · intro cfg pipeline e hf he
    simp [setupTelemetry, hf, he]

theorem setupTelemetry_never_fails_witness :
    setupTelemetry (ε := String) (α := List String)
        (some ⟨none, none, some "https://hooks.example/x"⟩) (fun _ => .error "boom")
      = (.ok none, ["Error setting up telemetry"]) :=
  (setupTelemetry_never_fails (ε := String) (α := List String)).2.2.2
    ⟨none, none, some "https://hooks.example/x"⟩ (fun _ => .error "boom") "boom"
    (by decide) rfl

/-- C10: `syncLambda` returns the refs of every function present remotely
before the run — the deleted surplus ones included, safe-listed or not —
concatenated with the refs of the newly created functions; the deleted
names are exactly the surplus ones not on the safe-list, and every
pre-run function's ref is in the returned list regardless. -/
theorem syncLambda_returns_preexisting_and_created
    (currentFunctions : List AwsFunctionLite) (http : List HttpFn)
    (safeList : List String) (createdId : HttpFn → String) :
    (syncLambda currentFunctions http safeList createdId).1 =
        (currentFunctions.map fun fn => FnRef.mk fn.id fn.name) ++
          ((compare HttpFn.name AwsFunctionLite.name http currentFunctions).missing.map
            fun fn => FnRef.mk (createdId fn) fn.name) ∧
    (syncLambda currentFunctions http safeList createdId).2 =
        ((compare HttpFn.name AwsFunctionLite.name http currentFunctions).surplus.filter
          fun el => !(safeList.contains el.name)).map AwsFunctionLite.name ∧
    ∀ fn ∈ currentFunctions,
      FnRef.mk fn.id fn.name ∈ (syncLambda currentFunctions http safeList createdId).1 := by
  refine ⟨rfl, rfl, ?_⟩
  intro fn hfn
  exact List.mem_append_left _ (List.mem_map_of_mem _ hfn)

theorem syncLambda_returns_deleted_witness :
    FnRef.mk "arn:aws:lambda:eu-central-1:123456789012:function:p-s-gone" "gone" ∈
      (syncLambda [⟨"arn:aws:lambda:eu-central-1:123456789012:function:p-s-gone", "gone",
          "nodejs20.x", 128, 15, [], "hash"⟩] [] [] (fun _ => "")).1 :=
  (syncLambda_returns_preexisting_and_created
      [⟨"arn:aws:lambda:eu-central-1:123456789012:function:p-s-gone", "gone",
        "nodejs20.x", 128, 15, [], "hash"⟩] [] [] (fun _ => "")).2.2
    ⟨"arn:aws:lambda:eu-central-1:123456789012:function:p-s-gone", "gone",
      "nodejs20.x", 128, 15, [], "hash"⟩ (by simp)

end NodeDeploy
